import Mathlib

/-!
Verification of the faster_whisper batch-transcription scripts.

The development shallowly embeds the job-distribution / aggregation logic of
`src/main.py`, the metadata construction of `src/util.py`, and the peak
resource monitor of `src/resource_monitor.py`.  Machine floats are modelled
as rationals, Python `None` as `Option`, raised exceptions as `Except` /
explicit outcome values, and file-system effects as explicit event lists.
-/

namespace FasterWhisper

/-! ## util.py -/

/-- One transcription segment as stored in `segments_data`:
`{"start": ..., "end": ..., "text": ...}`. -/
structure Segment where
  start : ℚ
  stop : ℚ
  text : String
deriving DecidableEq, Repr

/-- The fields of the collaborator's `info` object that
`write_transcription_json` reads: `info.duration` (may be absent/None),
`info.language`, `info.language_probability`. -/
structure TranscriptionInfo where
  duration : Option ℚ
  language : String
  language_probability : ℚ
deriving DecidableEq, Repr

/-- The JSON document built by `util.write_transcription_json`. -/
structure TranscriptionJson where
  audio_file : String
  device : Option String
  audio_duration_min : ℚ
  non_speech_duration_min : ℚ
  speech_duration_min : ℚ
  run_time_min : Option ℚ
  recognition_speed : Option ℚ
  language : String
  language_probability : ℚ
  segments : List Segment
deriving DecidableEq, Repr

/-- `util.write_transcription_json` (the pure value it serialises).
`transcription_time_sec = none` models passing `None`; Python truthiness of
a float is modelled as `≠ 0`. -/
def write_transcription_json (audio_file : String) (segments : List Segment)
    (info : TranscriptionInfo) (device : Option String)
    (transcription_time_sec : Option ℚ) : TranscriptionJson :=
  let duration_sec : ℚ :=
    match info.duration with
    | none => 0
    | some d => if d ≠ 0 then d else 0
  let speech_duration_sec : ℚ := (segments.map (fun seg => seg.stop - seg.start)).sum
  let non_speech_duration_sec : ℚ := max (duration_sec - speech_duration_sec) 0
  let run_time_min : Option ℚ :=
    match transcription_time_sec with
    | none => none
    | some t => if t ≠ 0 then some (t / 60) else none
  let recognition_speed : Option ℚ :=
    match transcription_time_sec with
    | none => none
    | some t => if t ≠ 0 then (if t > 0 then some (speech_duration_sec / t) else none) else none
  { audio_file := audio_file
    device := device
    audio_duration_min := duration_sec / 60
    non_speech_duration_min := non_speech_duration_sec / 60
    speech_duration_min := speech_duration_sec / 60
    run_time_min := run_time_min
    recognition_speed := recognition_speed
    language := info.language
    language_probability := info.language_probability
    segments := segments }

/-- Cumulative speech duration, as summed in `write_transcription_json`. -/
def speechDuration (segments : List Segment) : ℚ :=
  (segments.map (fun seg => seg.stop - seg.start)).sum

/-- `util.SUPPORTED_EXTENSIONS`. -/
def SUPPORTED_EXTENSIONS : List String :=
  [".mp3", ".mp4", ".wav", ".flac", ".ts", ".mpeg", ".mpeg2"]

/-- `f.lower().endswith(SUPPORTED_EXTENSIONS)`. -/
def hasSupportedExtension (f : String) : Bool :=
  SUPPORTED_EXTENSIONS.any (fun ext => f.toLower.endsWith ext)

/-- The input path handed to `collect_audio_files`: a directory (with its
listing), a plain file, or something else (missing path). -/
inductive InputPath where
  | dir (entries : List String)
  | file (name : String)
  | missing
deriving DecidableEq, Repr

/-- Python list slicing `files[:limit]` for an `int` limit: a non-negative
limit keeps the first `limit` elements, a negative limit drops the last
`-limit` elements. -/
def pySliceTo (files : List String) (limit : ℤ) : List String :=
  if 0 ≤ limit then files.take limit.toNat
  else files.take (files.length - (-limit).toNat)

/-- The `files` list built by the `isdir`/`isfile` branches of
`collect_audio_files` (raising `FileNotFoundError` otherwise). -/
def collectFiles : InputPath → Except String (List String)
  | .dir entries => .ok (entries.filter hasSupportedExtension)
  | .file name =>
      if hasSupportedExtension name then .ok [name]
      else .error "No valid audio files found."
  | .missing => .error "No valid audio files found."

/-- `util.collect_audio_files`.  `limit = none` models the default `None`;
the final line `return files[:limit] if limit else files` applies the slice
only when `limit` is truthy (an `int` other than `0`). -/
def collect_audio_files (input_path : InputPath) (limit : Option ℤ) :
    Except String (List String) :=
  match collectFiles input_path with
  | .error e => .error e
  | .ok files =>
      match limit with
      | none => .ok files
      | some l => if l ≠ 0 then .ok (pySliceTo files l) else .ok files

/-! ## resource_monitor.py -/

/-- One entry of the list returned by `get_gpu_usage` (the fields of a
single device's reading). -/
structure GpuSample where
  memory_total_MB : ℚ
  memory_used_MB : ℚ
  memory_free_MB : ℚ
  gpu_utilization_percent : ℚ
  memory_utilization_percent : ℚ
deriving DecidableEq, Repr

/-- One per-device entry of `peaks["gpu"]`. -/
structure GpuPeak where
  memory_total_MB : ℚ
  memory_used_MB : ℚ
  memory_free_MB : ℚ
  gpu_utilization_percent : ℚ
  memory_utilization_percent : ℚ
deriving DecidableEq, Repr

/-- The `peaks` accumulator dictionary.  `gpu` is the lazily populated
per-device map `peaks["gpu"]`, keyed by the device index. -/
structure Peaks where
  cpu_percent : ℚ
  ram_total_MB : ℚ
  ram_used_MB : ℚ
  ram_free_MB : ℚ
  gpu : Nat → Option GpuPeak

/-- The values read by one successful sampling tick: `psutil.cpu_percent`,
`psutil.virtual_memory().used/available`, and `get_gpu_usage()` (`none`
when GPU support is unavailable). -/
structure Tick where
  cpu_percent : ℚ
  ram_used_MB : ℚ
  ram_available_MB : ℚ
  gpu_data : Option (List GpuSample)
deriving DecidableEq, Repr

/-- `peaks["gpu"].setdefault(i, ...)`: the default entry installed on first
observation of device `i`. -/
def gpuSetdefault (gpu : GpuSample) : Option GpuPeak → GpuPeak
  | some p => p
  | none =>
      { memory_total_MB := gpu.memory_total_MB
        memory_used_MB := 0
        memory_free_MB := gpu.memory_total_MB
        gpu_utilization_percent := 0
        memory_utilization_percent := 0 }

/-- The four mutations applied to `gpu_peak` on each tick. -/
def gpuFold (gpu : GpuSample) (p : GpuPeak) : GpuPeak :=
  { p with
    memory_used_MB := max p.memory_used_MB gpu.memory_used_MB
    memory_free_MB := min p.memory_free_MB gpu.memory_free_MB
    gpu_utilization_percent := max p.gpu_utilization_percent gpu.gpu_utilization_percent
    memory_utilization_percent := max p.memory_utilization_percent gpu.memory_utilization_percent }

/-- One step of the `for i, gpu in enumerate(gpu_data)` loop: `setdefault`
then fold the reading into the entry at key `i`. -/
def gpuStep (m : Nat → Option GpuPeak) (p : Nat × GpuSample) : Nat → Option GpuPeak :=
  fun k => if k = p.1 then some (gpuFold p.2 (gpuSetdefault p.2 (m p.1))) else m k

/-- `for i, gpu in enumerate(gpu_data): ...` — update the per-device map at
the enumeration index `i`. -/
def updateGpuPeaks (gpus : List GpuSample) (m : Nat → Option GpuPeak) : Nat → Option GpuPeak :=
  (gpus.enum).foldl gpuStep m

/-- Update the CPU and RAM peaks — the first half of the loop body of
`monitor_resources`. -/
def cpuRamFold (t : Tick) (peaks : Peaks) : Peaks :=
  { peaks with
    cpu_percent := max peaks.cpu_percent t.cpu_percent
    ram_used_MB := max peaks.ram_used_MB t.ram_used_MB
    ram_free_MB := min peaks.ram_free_MB t.ram_available_MB }

/-- One full loop iteration of `monitor_resources` on a successful tick:
CPU/RAM peaks, then `if gpu_data:` the per-device peaks (`None` and the
empty list are both falsy and skip the GPU update). -/
def monitorTick (t : Tick) (peaks : Peaks) : Peaks :=
  let p1 := cpuRamFold t peaks
  match t.gpu_data with
  | none => p1
  | some gpus => if gpus.isEmpty then p1 else { p1 with gpu := updateGpuPeaks gpus p1.gpu }

/-- The possible outcomes of one loop iteration's resource reads.  The loop
body of `monitor_resources` contains no exception handler, so a raising
read propagates out of the loop; a raise in `get_gpu_usage` happens after
the CPU/RAM peaks were already updated. -/
inductive TickOutcome where
  | ok (t : Tick)
  | readRaises
  | gpuRaises (t : Tick)
deriving DecidableEq, Repr

/-- The `monitor_resources` sampling loop over a sequence of tick outcomes:
successful ticks fold into the accumulator; the first raising tick ends the
loop (the thread dies), with the CPU/RAM update already applied when the
raise came from `get_gpu_usage`.  The boolean records whether the loop was
terminated by an exception. -/
def monitor_resources : List TickOutcome → Peaks → Peaks × Bool
  | [], peaks => (peaks, false)
  | .ok t :: rest, peaks => monitor_resources rest (monitorTick t peaks)
  | .readRaises :: _, peaks => (peaks, true)
  | .gpuRaises t :: _, peaks => (cpuRamFold t peaks, true)

/-- Modelled from the spec: the behaviour §7(d) claims — a failing tick is
skipped (prior accumulator state preserved unchanged) and sampling
continues on subsequent ticks. -/
def monitor_resources_spec : List TickOutcome → Peaks → Peaks
  | [], peaks => peaks
  | .ok t :: rest, peaks => monitor_resources_spec rest (monitorTick t peaks)
  | .readRaises :: rest, peaks => monitor_resources_spec rest peaks
  | .gpuRaises _ :: rest, peaks => monitor_resources_spec rest peaks

/-- `main`'s initial `peaks` dictionary, given the startup
`psutil.virtual_memory()` reading. -/
def initPeaks (ram_total_MB : ℚ) : Peaks :=
  { cpu_percent := 0
    ram_total_MB := ram_total_MB
    ram_used_MB := 0
    ram_free_MB := ram_total_MB
    gpu := fun _ => none }

/-- How the child workload of `resource_monitor.main` ends: `Popen` itself
raises, the child exits (any code), or `process.wait()` raises. -/
inductive ChildOutcome where
  | spawnRaises (msg : String)
  | exited (code : ℤ)
  | waitRaises (msg : String)
deriving DecidableEq, Repr

/-- The observable actions of the supervisor in `resource_monitor.main`. -/
inductive SupAction where
  | startSampler
  | spawnChild
  | waitChild
  | setStopEvent
  | joinSampler
  | writeReport (finalPeaks : Peaks)

/-- Whether an action is the terminal report write. -/
def SupAction.isWrite : SupAction → Bool
  | .writeReport _ => true
  | _ => false

/-- The `try` body of `resource_monitor.main`: spawn the child, then wait
on it.  Returns the actions performed and the exception escaping the body,
if any. -/
def supervisorBody : ChildOutcome → List SupAction × Option String
  | .spawnRaises msg => ([.spawnChild], some msg)
  | .exited _ => ([.spawnChild, .waitChild], none)
  | .waitRaises msg => ([.spawnChild, .waitChild], some msg)

/-- `resource_monitor.main` after argument checking: start the sampler
thread, run the `try` body, and in the `finally` block set the stop event,
join the sampler, and write the final accumulator to
`system_resources.json`.  `finalPeaks` is the accumulator contents after
the joined sampler stopped.  Returns the action trace and the uncaught
exception, if any, that propagates after `finally` ran. -/
def supervisorRun (outcome : ChildOutcome) (finalPeaks : Peaks) :
    List SupAction × Option String :=
  let body := supervisorBody outcome
  (SupAction.startSampler :: body.1 ++
    [SupAction.setStopEvent, SupAction.joinSampler, SupAction.writeReport finalPeaks],
   body.2)

/-! ## main.py — work partitioner -/

/-- The loop `for i, audio_file in enumerate(audio_files): files_per_gpu[i %
num_gpus].append(audio_file)`, with the enumeration made explicit. -/
def assignLoop (num_gpus : Nat) : List (Nat × α) → List (List α) → List (List α)
  | [], qs => qs
  | p :: rest, qs =>
      assignLoop num_gpus rest (qs.set (p.1 % num_gpus) (qs.getD (p.1 % num_gpus) [] ++ [p.2]))

/-- The round-robin distribution of `main`: `files_per_gpu = [[] for _ in
range(num_gpus)]` followed by the enumeration loop. -/
def files_per_gpu (num_gpus : Nat) (audio_files : List α) : List (List α) :=
  assignLoop num_gpus audio_files.enum (List.replicate num_gpus [])

/-! ## main.py — transcribe_file and gpu_worker -/

/-- The characters after the last separator (used for `os.path.basename`). -/
def afterLastSep (sep : Char) (cs : List Char) : List Char :=
  cs.foldl (fun acc c => if c = sep then [] else acc ++ [c]) []

/-- `os.path.basename`: the part after the last slash. -/
def basename (p : String) : String :=
  String.mk (afterLastSep '/' p.data)

/-- `os.path.splitext(...)[0]` on a basename: the part before the last dot
(the whole name when there is no dot). -/
def splitextBase (p : String) : String :=
  if p.data.contains '.' then
    String.mk (((p.data.reverse.dropWhile (fun c => c ≠ '.')).drop 1).reverse)
  else p

/-- A file-system artifact produced by `transcribe_file`. -/
inductive Artifact where
  | txtFile (path : String)
  | jsonFile (path : String) (contents : TranscriptionJson)
  | plotFile (path : String)
deriving DecidableEq, Repr

/-- How the collaborator call `model.transcribe(...)` (together with the
segment iteration inside the `with open(txt_file, "w")` block) ends. -/
inductive CollabOutcome where
  | raises (msg : String)
  | yields (segments : List Segment) (info : TranscriptionInfo)
deriving DecidableEq, Repr

/-- The configuration fields `transcribe_file` consults. -/
structure TConfig where
  vad_plot_enable : Bool
deriving DecidableEq, Repr

/-- `main.transcribe_file` as an artifact trace plus outcome.  The text
file is created by `open(txt_file, "w")` before `model.transcribe` is
invoked, so a raising collaborator still leaves the (possibly empty) text
artifact behind.  `elapsed` is `time.time() - start_time`; `plotOk` is
whether `plot_waveform_with_vad` succeeds (its failure is caught and only
logged). -/
def transcribe_file (collab : CollabOutcome) (audio_file output_dir : String)
    (device : Option String) (elapsed : ℚ) (config : TConfig) (plotOk : Bool) :
    List Artifact × Except String (String × String) :=
  let base_name := splitextBase (basename audio_file)
  let file_output_dir := output_dir ++ "/" ++ base_name
  let txt_file := file_output_dir ++ "/" ++ base_name ++ ".txt"
  let json_file := file_output_dir ++ "/" ++ base_name ++ ".json"
  match collab with
  | .raises msg => ([.txtFile txt_file], .error msg)
  | .yields segments info =>
      let json := write_transcription_json audio_file segments info device (some elapsed)
      let plots :=
        if config.vad_plot_enable ∧ plotOk then
          [Artifact.plotFile (file_output_dir ++ "/" ++ base_name ++ "_waveform.png")]
        else []
      ([Artifact.txtFile txt_file, Artifact.jsonFile json_file json] ++ plots,
       .ok (txt_file, json_file))

/-- One entry of the `results` list built by `gpu_worker`. -/
structure JobRes where
  audio_file : String
  txt_file : Option String
  json_file : Option String
  error : Option String
deriving DecidableEq, Repr

/-- The environment one `gpu_worker` iteration runs in: the collaborator's
behaviour on this file, the measured elapsed time, whether the VAD plot
succeeds, and an artifact-I/O failure raised inside the `try` block after
`transcribe_file` returned (e.g. while reading the JSON back), if any. -/
structure TranscribeEnv where
  collab : CollabOutcome
  elapsed : ℚ
  plotOk : Bool
  ioFails : Option String
deriving DecidableEq, Repr

/-- The contents of the first JSON artifact in a trace (what
`json.load` reads back). -/
def writtenJson : List Artifact → Option TranscriptionJson
  | [] => none
  | .jsonFile _ j :: _ => some j
  | _ :: rest => writtenJson rest

/-- One iteration of the `for audio_file in audio_files` loop of
`gpu_worker`: run `transcribe_file`, read `recognition_speed` back from the
JSON, and catch any exception, turning it into a failed result. -/
def runJob (config : TConfig) (output_dir : String) (device : Option String)
    (file : String) (env : TranscribeEnv) : JobRes × Option ℚ :=
  let tf := transcribe_file env.collab file output_dir device env.elapsed config env.plotOk
  match tf.2, env.ioFails with
  | .error m, _ =>
      ({ audio_file := file, txt_file := none, json_file := none, error := some m }, none)
  | .ok _, some m =>
      ({ audio_file := file, txt_file := none, json_file := none, error := some m }, none)
  | .ok (txt, json), none =>
      ({ audio_file := file, txt_file := some txt, json_file := some json, error := none },
       (writtenJson tf.1).bind (fun j => j.recognition_speed))

/-- The body of `gpu_worker`'s loop: build `results` and
`recognition_speeds` in file order (a speed is appended only when the job
succeeded and the JSON's `recognition_speed` is not `None`). -/
def workerLoop (config : TConfig) (output_dir : String) (device : Option String)
    (env : String → TranscribeEnv) : List String → List JobRes × List ℚ
  | [] => ([], [])
  | f :: rest =>
      let r := runJob config output_dir device f (env f)
      let tail := workerLoop config output_dir device env rest
      (r.1 :: tail.1,
       match r.2 with
       | some s => s :: tail.2
       | none => tail.2)

/-- The dictionary `gpu_worker` returns. -/
structure WorkerReturn where
  gpu_id : Nat
  results : List JobRes
  recognition_speeds : List ℚ
deriving DecidableEq, Repr

/-- `main.gpu_worker` on its device queue. -/
def gpu_worker (gpu_id : Nat) (config : TConfig) (output_dir : String)
    (env : String → TranscribeEnv) (audio_files : List String) : WorkerReturn :=
  let lp := workerLoop config output_dir (some "cuda") env audio_files
  { gpu_id := gpu_id, results := lp.1, recognition_speeds := lp.2 }

/-! ## main.py — orchestrator aggregation -/

/-- What `task.get()` observes for one spawned worker: the worker's return
value, or the exception of a worker process that died. -/
inductive WorkerOutcome where
  | ok (r : WorkerReturn)
  | crashed (msg : String)
deriving DecidableEq, Repr

/-- The loop `for i, gpu_id in enumerate(gpu_ids): if files_per_gpu[i]:
tasks.append(...)`: one `apply_async` per device with a non-empty queue, in
device order, carrying the device index. -/
def tasksFrom (runWorker : Nat → List String → WorkerOutcome) :
    Nat → List (List String) → List WorkerOutcome
  | _, [] => []
  | i, q :: rest =>
      if q.isEmpty then tasksFrom runWorker (i + 1) rest
      else runWorker i q :: tasksFrom runWorker (i + 1) rest

/-- The task list of `main`. -/
def mainTasks (queues : List (List String)) (runWorker : Nat → List String → WorkerOutcome) :
    List WorkerOutcome :=
  tasksFrom runWorker 0 queues

/-- The `for task in tasks` collection loop of `main`:
`all_recognition_speeds.extend(result['recognition_speeds'])` on success,
`print(f"Worker process failed: ...")` on a crashed worker.  Returns the
collected speeds and the printed pool-level error messages, each in task
order. -/
def collectTasks : List WorkerOutcome → List ℚ × List String
  | [] => ([], [])
  | .ok r :: rest =>
      (r.recognition_speeds ++ (collectTasks rest).1, (collectTasks rest).2)
  | .crashed m :: rest =>
      ((collectTasks rest).1, ("Worker process failed: " ++ m) :: (collectTasks rest).2)

/-- The aggregation phase of `main`: collect over the spawned tasks. -/
def mainAggregate (queues : List (List String)) (runWorker : Nat → List String → WorkerOutcome) :
    List ℚ × List String :=
  collectTasks (mainTasks queues runWorker)

/-- The final summary of `main`: the average recognition speed and the
file count when any speeds were collected, nothing otherwise (the script
prints "No recognition speed data available."). -/
def finalReport (speeds : List ℚ) : Option (ℚ × Nat) :=
  if speeds.isEmpty then none else some (speeds.sum / speeds.length, speeds.length)

/-! ## Helper lemmas -/

/-- The `recognition_speed` field written for a measured elapsed time `t`
collapses to a single positivity guard. -/
theorem recognitionSpeed_eq (audio_file : String) (segments : List Segment)
    (info : TranscriptionInfo) (device : Option String) (t : ℚ) :
    (write_transcription_json audio_file segments info device (some t)).recognition_speed =
      if 0 < t then some (speechDuration segments / t) else none := by
  by_cases h : 0 < t
  · simp [write_transcription_json, speechDuration, ne_of_gt h, h]
  · by_cases hz : t = 0
    · simp [write_transcription_json, hz]
    · simp [write_transcription_json, hz, h]

/-- The `recognition_speed` field written when no elapsed time was passed. -/
theorem recognitionSpeed_none (audio_file : String) (segments : List Segment)
    (info : TranscriptionInfo) (device : Option String) :
    (write_transcription_json audio_file segments info device none).recognition_speed = none := rfl

/-! ## C8 -/

/-- C8: the derived throughput (`recognition_speed`) in the metadata
artifact equals speech duration divided by elapsed time when the elapsed
time is positive and is `None` otherwise (elapsed time missing, zero, or
negative), and whenever a value is produced the denominator is a nonzero
(indeed positive) elapsed time — the division is never performed with a
zero denominator. -/
theorem C8_recognition_speed (audio_file : String) (segments : List Segment)
    (info : TranscriptionInfo) (device : Option String) (t : Option ℚ) :
    ((write_transcription_json audio_file segments info device t).recognition_speed =
      match t with
      | none => none
      | some x => if 0 < x then some (speechDuration segments / x) else none) ∧
    (∀ v, (write_transcription_json audio_file segments info device t).recognition_speed = some v →
      ∃ x, t = some x ∧ 0 < x ∧ x ≠ 0 ∧ v = speechDuration segments / x) := by
  constructor
  · cases t with
    | none => exact recognitionSpeed_none audio_file segments info device
    | some x => exact recognitionSpeed_eq audio_file segments info device x
  · intro v hv
    cases t with
    | none =>
        rw [recognitionSpeed_none] at hv
        exact Option.noConfusion hv
    | some x =>
        rw [recognitionSpeed_eq] at hv
        by_cases hx : 0 < x
        · refine ⟨x, rfl, hx, ne_of_gt hx, ?_⟩
          rw [if_pos hx] at hv
          exact (Option.some_injective ℚ hv).symm
        · rw [if_neg hx] at hv
          exact Option.noConfusion hv

/-- C8 witness: a concrete job with 3 seconds of speech transcribed in 2
seconds gets throughput 3/2; the theorem's characterisation evaluates to
exactly that. -/
theorem C8_recognition_speed_witness :
    (write_transcription_json "a.wav" [{ start := 0, stop := 3, text := "hi" }]
      { duration := some 10, language := "en", language_probability := 9/10 }
      (some "cuda") (some 2)).recognition_speed = some (3/2) := by
  have h := C8_recognition_speed "a.wav" [{ start := 0, stop := 3, text := "hi" }]
    { duration := some 10, language := "en", language_probability := 9/10 } (some "cuda") (some 2)
  rw [h.1]
  norm_num [speechDuration]

/-! ## C10 -/

/-- C10: `collect_audio_files` with a limit of `0` returns the full
collected list, identical to passing no limit at all, because the
truncation `files[:limit] if limit else files` fires only for a truthy
limit; with a positive limit `n` it returns the first at most `n` files. -/
theorem C10_collect_limit (input_path : InputPath) (n : ℤ) (hn : 0 < n) :
    collect_audio_files input_path (some 0) = collect_audio_files input_path none ∧
    collect_audio_files input_path (some n) =
      (collect_audio_files input_path none).map (fun files => files.take n.toNat) ∧
    (∀ files, collect_audio_files input_path (some n) = .ok files → files.length ≤ n.toNat) := by
  have hne : n ≠ 0 := ne_of_gt hn
  have hslice : ∀ files : List String, pySliceTo files n = files.take n.toNat := by
    intro files
    simp only [pySliceTo, if_pos (le_of_lt hn)]
  have h2 : collect_audio_files input_path (some n) =
      (collect_audio_files input_path none).map (fun files => files.take n.toNat) := by
    cases hc : collectFiles input_path with
    | error e => simp only [collect_audio_files, hc, Except.map]
    | ok files =>
        simp only [collect_audio_files, hc, if_pos hne, hslice, Except.map]
  refine ⟨?_, h2, ?_⟩
  · cases hc : collectFiles input_path with
    | error e => simp only [collect_audio_files, hc]
    | ok files =>
        have h0 : ¬ ((0 : ℤ) ≠ 0) := by simp
        simp only [collect_audio_files, hc, if_neg h0]
  · intro files hfiles
    rw [h2] at hfiles
    cases hfull : collect_audio_files input_path none with
    | error e =>
        rw [hfull] at hfiles
        exact Except.noConfusion hfiles
    | ok full =>
        rw [hfull] at hfiles
        simp only [Except.map] at hfiles
        cases hfiles
        exact List.length_take_le _ _

/-- C10 witness: a directory with three entries, one of which is not an
audio file, under limit 0 and limit 2. -/
theorem C10_collect_limit_witness :
    (0 : ℤ) < 2 ∧
    collect_audio_files (.dir ["a.wav", "b.mp3", "c.txt"]) (some 0) =
      collect_audio_files (.dir ["a.wav", "b.mp3", "c.txt"]) none ∧
    collect_audio_files (.dir ["a.wav", "b.mp3", "c.txt"]) (some 2) =
      (collect_audio_files (.dir ["a.wav", "b.mp3", "c.txt"]) none).map
        (fun files => files.take (2 : ℤ).toNat) := by
  have h := C10_collect_limit (.dir ["a.wav", "b.mp3", "c.txt"]) 2 (by decide)
  exact ⟨by decide, h.1, h.2.1⟩

/-! ## C3 -/

/-- C3: for every child outcome — spawn failure, normal or non-zero exit,
or an exception raised while waiting — the supervisor's action trace ends
with setting the stop signal, joining the sampler, and writing the final
peak accumulator, and contains exactly one write (no missing write, no
double write). -/
theorem C3_supervisor_finalizes (outcome : ChildOutcome) (finalPeaks : Peaks) :
    (supervisorRun outcome finalPeaks).1.countP SupAction.isWrite = 1 ∧
    List.IsSuffix
      [SupAction.setStopEvent, SupAction.joinSampler, SupAction.writeReport finalPeaks]
      (supervisorRun outcome finalPeaks).1 := by
  cases outcome with
  | spawnRaises msg =>
      exact ⟨rfl, ⟨[SupAction.startSampler, SupAction.spawnChild], rfl⟩⟩
  | exited code =>
      exact ⟨rfl, ⟨[SupAction.startSampler, SupAction.spawnChild, SupAction.waitChild], rfl⟩⟩
  | waitRaises msg =>
      exact ⟨rfl, ⟨[SupAction.startSampler, SupAction.spawnChild, SupAction.waitChild], rfl⟩⟩

/-! ## C7 -/

/-- Whether an artifact is the text transcript. -/
def Artifact.isTxt : Artifact → Bool
  | .txtFile _ => true
  | _ => false

/-- Whether an artifact is the metadata document. -/
def Artifact.isJson : Artifact → Bool
  | .jsonFile _ _ => true
  | _ => false

/-- C7 counterexample: a job whose collaborator invocation fails before any
output was produced does not leave zero artifacts behind — the text file
was already created by `open(txt_file, "w")` before `model.transcribe` was
called, so exactly one (empty) artifact exists. -/
theorem C7_counterexample :
    (transcribe_file (.raises "model failed") "clip.wav" "out" (some "cuda") 1
        { vad_plot_enable := false } true).1 =
      [Artifact.txtFile "out/clip/clip.txt"] ∧
    (transcribe_file (.raises "model failed") "clip.wav" "out" (some "cuda") 1
        { vad_plot_enable := false } true).1 ≠ [] := by
  constructor <;> decide

/-- C7 amended: every run creates exactly one text artifact; a job whose
collaborator invocation fails leaves exactly one artifact (the created,
possibly empty, text file) and no metadata document; a successful job
writes the text and metadata artifacts — exactly two artifacts in total
when the VAD plot is disabled (a successful enabled plot adds a third). -/
theorem C7_amended (collab : CollabOutcome) (audio_file output_dir : String)
    (device : Option String) (elapsed : ℚ) (config : TConfig) (plotOk : Bool) :
    ((transcribe_file collab audio_file output_dir device elapsed config plotOk).1.countP
        Artifact.isTxt = 1) ∧
    (∀ msg, collab = .raises msg →
      (transcribe_file collab audio_file output_dir device elapsed config plotOk).1.length = 1 ∧
      (transcribe_file collab audio_file output_dir device elapsed config plotOk).1.countP
        Artifact.isJson = 0) ∧
    (∀ segments info, collab = .yields segments info →
      (transcribe_file collab audio_file output_dir device elapsed config plotOk).1.countP
        Artifact.isJson = 1 ∧
      (config.vad_plot_enable = false →
        (transcribe_file collab audio_file output_dir device elapsed config plotOk).1.length = 2)) := by
  cases collab with
  | raises msg =>
      refine ⟨rfl, fun m _ => ⟨rfl, rfl⟩, fun segments info h => CollabOutcome.noConfusion h⟩
  | yields segments info =>
      by_cases hp : config.vad_plot_enable ∧ plotOk
      · refine ⟨?_, fun m h => CollabOutcome.noConfusion h, fun s i _ => ⟨?_, fun hv => ?_⟩⟩
        · simp [transcribe_file, hp, List.countP_cons, Artifact.isTxt]
        · simp [transcribe_file, hp, List.countP_cons, Artifact.isJson]
        · exact absurd hp.1 (by simp [hv])
      · refine ⟨?_, fun m h => CollabOutcome.noConfusion h, fun s i _ => ⟨?_, fun hv => ?_⟩⟩
        · simp [transcribe_file, hp, List.countP_cons, Artifact.isTxt]
        · simp [transcribe_file, hp, List.countP_cons, Artifact.isJson]
        · simp [transcribe_file, hp]

/-- C7 amended witness: a concrete successful job with plotting disabled
writes exactly two artifacts; a concrete failing job leaves exactly one. -/
theorem C7_amended_witness :
    (transcribe_file
        (.yields [{ start := 0, stop := 2, text := "ok" }]
          { duration := some 2, language := "en", language_probability := 1 })
        "a.wav" "out" (some "cuda") 1 { vad_plot_enable := false } true).1.length = 2 ∧
    (transcribe_file (.raises "boom") "a.wav" "out" (some "cuda") 1
        { vad_plot_enable := false } true).1.length = 1 := by
  have h1 := C7_amended
    (.yields [{ start := 0, stop := 2, text := "ok" }]
      { duration := some 2, language := "en", language_probability := 1 })
    "a.wav" "out" (some "cuda") 1 { vad_plot_enable := false } true
  have h2 := C7_amended (.raises "boom") "a.wav" "out" (some "cuda") 1
    { vad_plot_enable := false } true
  exact ⟨(h1.2.2 _ _ rfl).2 rfl, (h2.2.1 "boom" rfl).1⟩

/-! ## C5 -/

/-- C5: the worker loop records exactly one result per queued job, in
order, each depending only on that job's own outcome; a job whose
collaborator raises, and a job whose artifact I/O raises after
transcription, are both caught and turned into a `JobRes` carrying the
failure reason — so no job's failure prevents any other queued job (on the
same or another device) from being attempted. -/
theorem C5_job_isolation (config : TConfig) (output_dir : String)
    (env : String → TranscribeEnv) :
    (∀ gpu_id files, (gpu_worker gpu_id config output_dir env files).results =
        files.map (fun f => (runJob config output_dir (some "cuda") f (env f)).1)) ∧
    (∀ gpu_id files, (gpu_worker gpu_id config output_dir env files).results.length =
        files.length) ∧
    (∀ f msg, (env f).collab = .raises msg →
        (runJob config output_dir (some "cuda") f (env f)).1 =
          { audio_file := f, txt_file := none, json_file := none, error := some msg }) ∧
    (∀ f segments info msg, (env f).collab = .yields segments info →
        (env f).ioFails = some msg →
        (runJob config output_dir (some "cuda") f (env f)).1 =
          { audio_file := f, txt_file := none, json_file := none, error := some msg }) := by
  have hmap : ∀ files, (workerLoop config output_dir (some "cuda") env files).1 =
      files.map (fun f => (runJob config output_dir (some "cuda") f (env f)).1) := by
    intro files
    induction files with
    | nil => rfl
    | cons f rest ih => simp only [workerLoop, List.map_cons, ih]
  refine ⟨fun gpu_id files => ?_, fun gpu_id files => ?_, ?_, ?_⟩
  · simp only [gpu_worker, hmap]
  · simp only [gpu_worker, hmap, List.length_map]
  · intro f msg h
    rcases he : env f with ⟨collab, elapsed, plotOk, ioFails⟩
    rw [he] at h
    simp only at h
    subst h
    cases ioFails <;> rfl
  · intro f segments info msg hc hio
    rcases he : env f with ⟨collab, elapsed, plotOk, ioFails⟩
    rw [he] at hc hio
    simp only at hc hio
    subst hc
    subst hio
    rfl

/-- A sample info record used by concrete witnesses. -/
def demoInfo : TranscriptionInfo :=
  { duration := some 1, language := "en", language_probability := 1 }

/-- A sample per-job environment that succeeds. -/
def demoEnvOk : TranscribeEnv :=
  { collab := .yields [] demoInfo, elapsed := 1, plotOk := true, ioFails := none }

/-- A sample per-job environment whose collaborator raises. -/
def demoEnvRaises : TranscribeEnv :=
  { collab := .raises "cuda OOM", elapsed := 1, plotOk := true, ioFails := none }

/-- A sample environment where only `b.wav` fails. -/
def demoEnv : String → TranscribeEnv :=
  fun f => if f = "b.wav" then demoEnvRaises else demoEnvOk

/-- C5 witness: a queue of three jobs whose middle job's collaborator
raises still yields three results, the middle one carrying the failure
reason. -/
theorem C5_job_isolation_witness :
    (gpu_worker 0 { vad_plot_enable := false } "out" demoEnv
        ["a.wav", "b.wav", "c.wav"]).results.length = 3 ∧
    ((gpu_worker 0 { vad_plot_enable := false } "out" demoEnv
        ["a.wav", "b.wav", "c.wav"]).results.map JobRes.error) =
      [none, some "cuda OOM", none] := by
  have h := C5_job_isolation { vad_plot_enable := false } "out" demoEnv
  refine ⟨h.2.1 0 ["a.wav", "b.wav", "c.wav"], ?_⟩
  rw [h.1 0 ["a.wav", "b.wav", "c.wav"]]
  decide

/-! ## C2 -/

/-- Modelled from the spec's words, for comparison against the code: the
throughput of one job — defined exactly when the job succeeded
(collaborator yielded, no artifact-I/O failure) with strictly positive
elapsed time, in which case it is speech-duration divided by elapsed
time. -/
def specThroughput (e : TranscribeEnv) : Option ℚ :=
  match e.collab, e.ioFails with
  | .yields segments _, none =>
      if 0 < e.elapsed then some (speechDuration segments / e.elapsed) else none
  | _, _ => none

/-- Modelled from the spec's words: the recognition-speed values of
exactly those jobs with a defined throughput, in job order. -/
def specDefinedThroughputs (env : String → TranscribeEnv) (files : List String) : List ℚ :=
  files.filterMap (fun f => specThroughput (env f))

/-- The recognition speed `gpu_worker` reads back for one job: defined
exactly when the job succeeded and the elapsed time was positive. -/
theorem runJob_speed (config : TConfig) (output_dir : String) (device : Option String)
    (f : String) (e : TranscribeEnv) :
    (runJob config output_dir device f e).2 = specThroughput e := by
  rcases e with ⟨collab, elapsed, plotOk, ioFails⟩
  cases collab with
  | raises msg => cases ioFails <;> rfl
  | yields segments info =>
      cases ioFails with
      | some m => rfl
      | none =>
          simp only [runJob, transcribe_file, writtenJson, Option.bind, specThroughput]
          exact recognitionSpeed_eq f segments info device elapsed

/-- The speed list built by the worker loop is exactly the spec-side list
of defined throughputs. -/
theorem workerLoop_speeds (config : TConfig) (output_dir : String)
    (env : String → TranscribeEnv) (files : List String) :
    (workerLoop config output_dir (some "cuda") env files).2 =
      specDefinedThroughputs env files := by
  induction files with
  | nil => rfl
  | cons f rest ih =>
      simp only [workerLoop, specDefinedThroughputs, List.filterMap_cons] at ih ⊢
      rw [runJob_speed, ih]
      cases specThroughput (env f) <;> rfl

/-- Collecting over all-finishing workers concatenates, queue by queue,
exactly the spec-side defined throughputs. -/
theorem collectTasks_ok_speeds (config : TConfig) (output_dir : String)
    (env : String → TranscribeEnv) :
    ∀ (i : Nat) (queues : List (List String)),
      (collectTasks (tasksFrom
        (fun gid q => WorkerOutcome.ok (gpu_worker gid config output_dir env q)) i queues)).1 =
      (queues.map (specDefinedThroughputs env)).flatten := by
  intro i queues
  induction queues generalizing i with
  | nil => rfl
  | cons q rest ih =>
      by_cases hq : q.isEmpty
      · have hqnil : q = [] := List.isEmpty_iff.mp hq
        rw [tasksFrom, if_pos hq, ih (i + 1), hqnil]
        simp [specDefinedThroughputs]
      · rw [tasksFrom, if_neg hq]
        have hw : (gpu_worker i config output_dir env q).recognition_speeds =
            specDefinedThroughputs env q := workerLoop_speeds config output_dir env q
        simp only [collectTasks]
        rw [hw, ih (i + 1), List.map_cons, List.flatten_cons]

/-- C2: with every worker finishing, the aggregate recognition-speed list
collected by `main` is exactly the spec-side list of throughputs of jobs
that succeeded with positive elapsed time (failed jobs and jobs with
undefined throughput are excluded); the final summary is the arithmetic
mean of that list when it is non-empty and reports no average otherwise;
and a successful job with zero speech duration contributes the value 0. -/
theorem C2_aggregate_throughput (config : TConfig) (output_dir : String)
    (env : String → TranscribeEnv) (queues : List (List String)) :
    ((mainAggregate queues
        (fun gid q => .ok (gpu_worker gid config output_dir env q))).1 =
      (queues.map (specDefinedThroughputs env)).flatten) ∧
    (finalReport (mainAggregate queues
        (fun gid q => .ok (gpu_worker gid config output_dir env q))).1 =
      (if (queues.map (specDefinedThroughputs env)).flatten = [] then none
       else some (((queues.map (specDefinedThroughputs env)).flatten).sum /
           ((queues.map (specDefinedThroughputs env)).flatten).length,
         ((queues.map (specDefinedThroughputs env)).flatten).length))) ∧
    (∀ f segments info, (env f).collab = .yields segments info → (env f).ioFails = none →
        0 < (env f).elapsed → speechDuration segments = 0 →
        (runJob config output_dir (some "cuda") f (env f)).2 = some 0) := by
  have h1 : (mainAggregate queues
      (fun gid q => .ok (gpu_worker gid config output_dir env q))).1 =
      (queues.map (specDefinedThroughputs env)).flatten :=
    collectTasks_ok_speeds config output_dir env 0 queues
  refine ⟨h1, ?_, ?_⟩
  · rw [h1, finalReport]
    by_cases hnil : (queues.map (specDefinedThroughputs env)).flatten = [] <;>
      simp [hnil]
  · intro f segments info hc hio he hs
    rw [runJob_speed]
    simp [specThroughput, hc, hio, he, hs]

/-- A sample environment: `a.wav` succeeds with 2 seconds of speech in 1
second, `b.wav` fails, `z.wav` succeeds with zero speech in 1 second. -/
def demoEnv2 : String → TranscribeEnv := fun f =>
  if f = "b.wav" then demoEnvRaises
  else if f = "z.wav" then demoEnvOk
  else { collab := .yields [{ start := 0, stop := 2, text := "hi" }] demoInfo,
         elapsed := 1, plotOk := true, ioFails := none }

/-- C2 witness: a concrete successful job with zero speech duration and
positive elapsed time really contributes the throughput value 0
(discharging the hypotheses of the theorem's inclusion clause at `z.wav`
under `demoEnv2`). -/
theorem C2_aggregate_throughput_witness :
    (runJob { vad_plot_enable := false } "out" (some "cuda") "z.wav" (demoEnv2 "z.wav")).2 =
      some 0 := by
  have h := C2_aggregate_throughput { vad_plot_enable := false } "out" demoEnv2 [["z.wav"]]
  exact h.2.2 "z.wav" [] demoInfo rfl rfl (by show (0 : ℚ) < 1; norm_num) rfl

/-! ## C9 -/

/-- A sample successful tick with no GPU data. -/
def tickA : Tick :=
  { cpu_percent := 5, ram_used_MB := 10, ram_available_MB := 90, gpu_data := none }

/-- C9 counterexample: the loop body of `monitor_resources` has no
exception handler, so a tick whose resource read raises terminates the
sampler instead of being skipped: with outcomes `[readRaises, ok tickA]`
the code never processes the second tick (its CPU peak stays 0 and the
loop dies), while the spec-described sampler would record CPU peak 5. -/
theorem C9_counterexample :
    (monitor_resources [TickOutcome.readRaises, TickOutcome.ok tickA] (initPeaks 100)).2 = true ∧
    (monitor_resources [TickOutcome.readRaises, TickOutcome.ok tickA]
        (initPeaks 100)).1.cpu_percent = 0 ∧
    (monitor_resources_spec [TickOutcome.readRaises, TickOutcome.ok tickA]
        (initPeaks 100)).cpu_percent = 5 := by
  refine ⟨rfl, rfl, ?_⟩
  show max (0 : ℚ) 5 = 5
  norm_num

/-- C9 amended: a failing resource read terminates the sampling loop at
that tick — every tick after the first failure is ignored — and the
accumulator keeps exactly the state reached before the failure (the
CPU/RAM updates of the failing tick itself are already applied when the
raise came from the GPU read). -/
theorem C9_amended (pre rest : List TickOutcome) (peaks : Peaks)
    (hpre : ∀ o ∈ pre, ∃ t, o = TickOutcome.ok t) :
    (monitor_resources (pre ++ TickOutcome.readRaises :: rest) peaks =
      ((monitor_resources pre peaks).1, true)) ∧
    (∀ t, monitor_resources (pre ++ TickOutcome.gpuRaises t :: rest) peaks =
      (cpuRamFold t (monitor_resources pre peaks).1, true)) := by
  induction pre generalizing peaks with
  | nil => exact ⟨rfl, fun t => rfl⟩
  | cons o pre' ih =>
      obtain ⟨t0, rfl⟩ := hpre o (List.mem_cons_self o pre')
      have h := ih (monitorTick t0 peaks) (fun o ho => hpre o (List.mem_cons_of_mem _ ho))
      exact ⟨h.1, h.2⟩

/-- C9 amended witness: one good tick, then a failing read, then another
good tick — the run stops at the failure with only the first tick folded
in. -/
theorem C9_amended_witness :
    monitor_resources ([TickOutcome.ok tickA] ++ TickOutcome.readRaises :: [TickOutcome.ok tickA])
        (initPeaks 100) =
      ((monitor_resources [TickOutcome.ok tickA] (initPeaks 100)).1, true) := by
  have h := C9_amended [TickOutcome.ok tickA] [TickOutcome.ok tickA] (initPeaks 100)
    (by intro o ho; simp at ho; exact ⟨tickA, ho⟩)
  exact h.1

/-! ## C6 -/

/-- C6 counterexample: with device 1's worker crashing, the final
aggregate (collected speeds and printed pool-level errors) is identical
whether device 1's queue held two jobs or one entirely different job — the
crashed device's unprocessed jobs are omitted from the final report, not
listed as unresolved; the only trace is the single pool-level message. -/
theorem C6_counterexample :
    (mainAggregate [["a.wav"], ["b.wav", "c.wav"]]
        (fun d _ => if d = 1 then .crashed "boom" else .ok ⟨d, [], []⟩) =
      mainAggregate [["a.wav"], ["x.wav"]]
        (fun d _ => if d = 1 then .crashed "boom" else .ok ⟨d, [], []⟩)) ∧
    (mainAggregate [["a.wav"], ["b.wav", "c.wav"]]
        (fun d _ => if d = 1 then .crashed "boom" else .ok ⟨d, [], []⟩)).2 =
      ["Worker process failed: boom"] ∧
    (mainAggregate [["a.wav"], ["b.wav", "c.wav"]]
        (fun d _ => if d = 1 then .crashed "boom" else .ok ⟨d, [], []⟩)).1 = [] := by
  refine ⟨rfl, rfl, rfl⟩

/-- C6 amended: a crashed worker is surfaced as a pool-level error message
(one `"Worker process failed: ..."` line per crashed worker, in task
order, distinct from any per-job `JobRes`), but the crashed device's jobs
are omitted from the aggregate: the collected speeds come only from
workers that returned, and replacing a crashed device's (non-empty) queue
with any other non-empty queue on which the worker also crashes with the
same message leaves the entire aggregate unchanged. -/
theorem C6_amended (runWorker : Nat → List String → WorkerOutcome) :
    (∀ tasks, (collectTasks tasks).2 = tasks.filterMap
        (fun t => match t with
          | .crashed m => some ("Worker process failed: " ++ m)
          | .ok _ => none)) ∧
    (∀ tasks, (collectTasks tasks).1 = (tasks.map
        (fun t => match t with
          | .ok r => r.recognition_speeds
          | .crashed _ => [])).flatten) ∧
    (∀ (pre post : List (List String)) (q q' : List String) (m : String),
      q.isEmpty = false → q'.isEmpty = false →
      runWorker pre.length q = .crashed m → runWorker pre.length q' = .crashed m →
      mainAggregate (pre ++ q :: post) runWorker =
        mainAggregate (pre ++ q' :: post) runWorker) := by
  have hc2 : ∀ tasks, (collectTasks tasks).2 = tasks.filterMap
      (fun t => match t with
        | WorkerOutcome.crashed m => some ("Worker process failed: " ++ m)
        | WorkerOutcome.ok _ => none) := by
    intro tasks
    induction tasks with
    | nil => rfl
    | cons t rest ih => cases t <;> simp [collectTasks, ih]
  have hc1 : ∀ tasks, (collectTasks tasks).1 = (tasks.map
      (fun t => match t with
        | WorkerOutcome.ok r => r.recognition_speeds
        | WorkerOutcome.crashed _ => [])).flatten := by
    intro tasks
    induction tasks with
    | nil => rfl
    | cons t rest ih => cases t <;> simp [collectTasks, ih]
  refine ⟨hc2, hc1, ?_⟩
  intro pre post q q' m hq hq' hw hw'
  suffices h : ∀ (pre' : List (List String)) (i : Nat),
      runWorker (i + pre'.length) q = .crashed m →
      runWorker (i + pre'.length) q' = .crashed m →
      tasksFrom runWorker i (pre' ++ q :: post) = tasksFrom runWorker i (pre' ++ q' :: post) by
    have hmain := h pre 0 (by simpa using hw) (by simpa using hw')
    simp only [mainAggregate, mainTasks, hmain]
  intro pre'
  induction pre' with
  | nil =>
      intro i hwq hwq'
      simp only [List.length_nil, Nat.add_zero] at hwq hwq'
      simp only [List.nil_append]
      rw [tasksFrom, tasksFrom,
        if_neg (by simp [hq]), if_neg (by simp [hq']), hwq, hwq']
  | cons p pre'' ih =>
      intro i hwq hwq'
      simp only [List.length_cons] at hwq hwq'
      have hq1 : runWorker ((i + 1) + pre''.length) q = .crashed m := by
        rw [show (i + 1) + pre''.length = i + (pre''.length + 1) by omega]
        exact hwq
      have hq2 : runWorker ((i + 1) + pre''.length) q' = .crashed m := by
        rw [show (i + 1) + pre''.length = i + (pre''.length + 1) by omega]
        exact hwq'
      have hrec := ih (i + 1) hq1 hq2
      simp only [List.cons_append]
      rw [tasksFrom, tasksFrom]
      by_cases hp : p.isEmpty
      · rw [if_pos hp, if_pos hp, hrec]
      · rw [if_neg hp, if_neg hp, hrec]

/-! ## C4 -/

/-- The per-device monotonicity order: peaks never decrease, the free
minimum never increases. -/
def GpuPeak.le (p q : GpuPeak) : Prop :=
  p.memory_used_MB ≤ q.memory_used_MB ∧
  q.memory_free_MB ≤ p.memory_free_MB ∧
  p.gpu_utilization_percent ≤ q.gpu_utilization_percent ∧
  p.memory_utilization_percent ≤ q.memory_utilization_percent

theorem gpuPeakLe_refl (p : GpuPeak) : GpuPeak.le p p :=
  ⟨le_rfl, le_rfl, le_rfl, le_rfl⟩

theorem gpuPeakLe_trans {p q r : GpuPeak} (h1 : GpuPeak.le p q) (h2 : GpuPeak.le q r) :
    GpuPeak.le p r :=
  ⟨h1.1.trans h2.1, h2.2.1.trans h1.2.1, h1.2.2.1.trans h2.2.2.1, h1.2.2.2.trans h2.2.2.2⟩

/-- The accumulator monotonicity order of §3: `cpu_percent` and
`ram_used_MB` never decrease, `ram_free_MB` never increases, and every
existing per-device entry survives and only moves up in
`GpuPeak.le`. -/
def Peaks.le (a b : Peaks) : Prop :=
  a.cpu_percent ≤ b.cpu_percent ∧
  a.ram_used_MB ≤ b.ram_used_MB ∧
  b.ram_free_MB ≤ a.ram_free_MB ∧
  ∀ k p, a.gpu k = some p → ∃ q, b.gpu k = some q ∧ GpuPeak.le p q

theorem peaksLe_refl (a : Peaks) : Peaks.le a a :=
  ⟨le_rfl, le_rfl, le_rfl, fun _ p hk => ⟨p, hk, gpuPeakLe_refl p⟩⟩

theorem peaksLe_trans {a b c : Peaks} (h1 : Peaks.le a b) (h2 : Peaks.le b c) :
    Peaks.le a c := by
  refine ⟨h1.1.trans h2.1, h1.2.1.trans h2.2.1, h2.2.2.1.trans h1.2.2.1, ?_⟩
  intro k p hk
  obtain ⟨q, hq, hpq⟩ := h1.2.2.2 k p hk
  obtain ⟨r, hr, hqr⟩ := h2.2.2.2 k q hq
  exact ⟨r, hr, gpuPeakLe_trans hpq hqr⟩

/-- Folding one reading into an entry only moves it up. -/
theorem gpuFold_le (g : GpuSample) (p : GpuPeak) : GpuPeak.le p (gpuFold g p) :=
  ⟨le_max_left _ _, min_le_left _ _, le_max_left _ _, le_max_left _ _⟩

/-- One enumeration step preserves existing entries, moving them up. -/
theorem gpuStep_some (m : Nat → Option GpuPeak) (pr : Nat × GpuSample) (k : Nat) (p : GpuPeak)
    (h : m k = some p) : ∃ q, gpuStep m pr k = some q ∧ GpuPeak.le p q := by
  by_cases hk : k = pr.1
  · refine ⟨gpuFold pr.2 (gpuSetdefault pr.2 (m pr.1)), by simp [gpuStep, hk], ?_⟩
    rw [← hk, h]
    exact gpuFold_le pr.2 p
  · exact ⟨p, by simp [gpuStep, hk, h], gpuPeakLe_refl p⟩

/-- The whole enumeration loop preserves existing entries, moving them
up. -/
theorem foldl_gpuStep_some (ps : List (Nat × GpuSample)) :
    ∀ (m : Nat → Option GpuPeak) (k : Nat) (p : GpuPeak), m k = some p →
      ∃ q, (ps.foldl gpuStep m) k = some q ∧ GpuPeak.le p q := by
  induction ps with
  | nil => exact fun m k p h => ⟨p, h, gpuPeakLe_refl p⟩
  | cons pr rest ih =>
      intro m k p h
      obtain ⟨q, hq, hpq⟩ := gpuStep_some m pr k p h
      obtain ⟨r, hr, hqr⟩ := ih (gpuStep m pr) k q hq
      exact ⟨r, hr, gpuPeakLe_trans hpq hqr⟩

/-- After the enumeration loop, every enumerated key has an entry. -/
theorem foldl_gpuStep_isSome (ps : List (Nat × GpuSample)) :
    ∀ (m : Nat → Option GpuPeak) (pr : Nat × GpuSample), pr ∈ ps →
      ((ps.foldl gpuStep m) pr.1).isSome := by
  induction ps with
  | nil => intro m pr h; cases h
  | cons a rest ih =>
      intro m pr h
      rcases List.mem_cons.mp h with rfl | hmem
      · have hset : (gpuStep m pr) pr.1 = some (gpuFold pr.2 (gpuSetdefault pr.2 (m pr.1))) := by
          simp [gpuStep]
        obtain ⟨q, hq, _⟩ := foldl_gpuStep_some rest (gpuStep m pr) pr.1 _ hset
        simp [List.foldl_cons, hq]
      · exact ih (gpuStep m a) pr hmem

/-- The CPU/RAM half of a tick only moves the accumulator up. -/
theorem cpuRamFold_le (t : Tick) (peaks : Peaks) : Peaks.le peaks (cpuRamFold t peaks) :=
  ⟨le_max_left _ _, le_max_left _ _, min_le_left _ _,
    fun _ p hk => ⟨p, hk, gpuPeakLe_refl p⟩⟩

/-- One full successful tick only moves the accumulator up. -/
theorem monitorTick_le (t : Tick) (peaks : Peaks) : Peaks.le peaks (monitorTick t peaks) := by
  have hbase := cpuRamFold_le t peaks
  cases hg : t.gpu_data with
  | none => simpa [monitorTick, hg] using hbase
  | some gpus =>
      by_cases he : gpus.isEmpty
      · simpa [monitorTick, hg, he] using hbase
      · refine peaksLe_trans hbase ?_
        simp only [monitorTick, hg, he, Bool.false_eq_true, if_neg, ite_false]
        refine ⟨le_rfl, le_rfl, le_rfl, ?_⟩
        intro k p hk
        exact foldl_gpuStep_some gpus.enum (cpuRamFold t peaks).gpu k p hk

/-- The whole sampling loop only moves the accumulator up, whatever the
tick outcomes (including a terminating failure). -/
theorem monitor_resources_le (outcomes : List TickOutcome) :
    ∀ peaks : Peaks, Peaks.le peaks (monitor_resources outcomes peaks).1 := by
  induction outcomes with
  | nil => exact fun peaks => peaksLe_refl peaks
  | cons o rest ih =>
      intro peaks
      cases o with
      | ok t => exact peaksLe_trans (monitorTick_le t peaks) (ih (monitorTick t peaks))
      | readRaises => exact peaksLe_refl peaks
      | gpuRaises t => exact cpuRamFold_le t peaks

/-- C4: across any sequence of sampler ticks the accumulator is monotone —
every peak field (CPU, RAM used, per-device memory used and both
utilisations) is non-decreasing, every free/min field (RAM free,
per-device memory free) is non-increasing, and per-device entries are
never removed; moreover a tick that observes `gpus` creates an entry for
every observed device index (lazily, on first observation). -/
theorem C4_peaks_monotone (outcomes : List TickOutcome) (peaks : Peaks) :
    Peaks.le peaks (monitor_resources outcomes peaks).1 ∧
    (∀ (t : Tick) (gpus : List GpuSample) (k : Nat),
      t.gpu_data = some gpus → gpus.isEmpty = false → k < gpus.length →
      ((monitorTick t peaks).gpu k).isSome) := by
  refine ⟨monitor_resources_le outcomes peaks, ?_⟩
  intro t gpus k hg he hk
  have hk' : k < gpus.enum.length := by
    rw [List.enum_length]
    exact hk
  have hmem : (k, gpus[k]) ∈ gpus.enum := by
    have hget := List.getElem_enum gpus k hk'
    rw [← hget]
    exact List.getElem_mem hk'
  have hsome := foldl_gpuStep_isSome gpus.enum (cpuRamFold t peaks).gpu (k, gpus[k]) hmem
  simp only [monitorTick, hg, he, Bool.false_eq_true, if_neg, ite_false]
  exact hsome

/-- A sample GPU reading. -/
def gpuSampleA : GpuSample :=
  { memory_total_MB := 4096, memory_used_MB := 1024, memory_free_MB := 3072,
    gpu_utilization_percent := 50, memory_utilization_percent := 25 }

/-- A sample successful tick observing one GPU. -/
def tickB : Tick :=
  { cpu_percent := 7, ram_used_MB := 20, ram_available_MB := 80,
    gpu_data := some [gpuSampleA] }

/-- C4 witness: a concrete two-tick run (second tick observing one GPU)
applied to the theorem: the initial accumulator relates to the final one,
and device 0 has an entry after the GPU tick. -/
theorem C4_peaks_monotone_witness :
    Peaks.le (initPeaks 100)
      (monitor_resources [TickOutcome.ok tickA, TickOutcome.ok tickB] (initPeaks 100)).1 ∧
    ((monitorTick tickB (initPeaks 100)).gpu 0).isSome := by
  have h := C4_peaks_monotone [TickOutcome.ok tickA, TickOutcome.ok tickB] (initPeaks 100)
  exact ⟨h.1, h.2 tickB [gpuSampleA] 0 rfl rfl (by norm_num)⟩

/-- A worker-run oracle for which device 1's worker always crashes. -/
def crashRW : Nat → List String → WorkerOutcome :=
  fun d _ => if d = 1 then .crashed "boom" else .ok ⟨d, [], []⟩

/-- C6 amended witness: concretely, swapping the crashed device 1's queue
`["b.wav", "c.wav"]` for `["x.wav"]` leaves the aggregate unchanged. -/
theorem C6_amended_witness :
    mainAggregate [["a.wav"], ["b.wav", "c.wav"]] crashRW =
      mainAggregate [["a.wav"], ["x.wav"]] crashRW := by
  have h := C6_amended crashRW
  exact h.2.2 [["a.wav"]] [] ["b.wav", "c.wav"] ["x.wav"] "boom" rfl rfl rfl rfl

/-! ## C1 -/

theorem getD_set_self {β : Type u} (l : List β) (j : Nat) (v d : β) (h : j < l.length) :
    (l.set j v).getD j d = v := by
  rw [List.getD_eq_getElem?_getD, List.getElem?_set_self (by omega), Option.getD_some]

theorem getD_set_ne {β : Type u} (l : List β) {j k : Nat} (hne : j ≠ k) (v d : β) :
    (l.set j v).getD k d = l.getD k d := by
  rw [List.getD_eq_getElem?_getD, List.getElem?_set_ne hne, ← List.getD_eq_getElem?_getD]

theorem getD_replicate_nil {β : Type u} (D d : Nat) :
    (List.replicate D ([] : List β)).getD d [] = [] := by
  rw [List.getD_eq_getElem?_getD, List.getElem?_replicate]
  split <;> rfl

/-- The assignment loop leaves the number of queues unchanged. -/
theorem assignLoop_length (D : Nat) (ps : List (Nat × α)) :
    ∀ qs : List (List α), (assignLoop D ps qs).length = qs.length := by
  induction ps with
  | nil => intro qs; rfl
  | cons p rest ih => intro qs; rw [assignLoop, ih, List.length_set]

/-- The core characterisation of the loop: queue `d` accumulates, in
order, exactly the jobs whose enumeration index is `≡ d (mod D)`. -/
theorem assignLoop_getD (D : Nat) (hD : 0 < D) (files : List α) :
    ∀ (i : Nat) (qs : List (List α)), qs.length = D → ∀ d, d < D →
    (assignLoop D (List.enumFrom i files) qs).getD d [] =
      qs.getD d [] ++ ((List.enumFrom i files).filter (fun p => p.1 % D == d)).map Prod.snd := by
  induction files with
  | nil =>
      intro i qs hlen d hd
      simp [assignLoop]
  | cons f rest ih =>
      intro i qs hlen d hd
      rw [List.enumFrom_cons, List.filter_cons, assignLoop]
      have hidx : i % D < qs.length := by rw [hlen]; exact Nat.mod_lt _ hD
      rw [ih (i + 1) _ (by rw [List.length_set, hlen]) d hd]
      by_cases hc : i % D = d
      · rw [if_pos (by simpa using hc)]
        rw [hc] at hidx ⊢
        rw [getD_set_self qs d _ [] hidx]
        simp
      · rw [if_neg (by simpa using hc)]
        rw [getD_set_ne qs hc _ []]

/-- Queue `d` of the round-robin partition holds exactly the jobs whose
ordinal is `≡ d (mod D)`, in their original relative order. -/
theorem files_per_gpu_queue (D : Nat) (hD : 0 < D) (files : List α) (d : Nat) (hd : d < D) :
    (files_per_gpu D files).getD d [] =
      (files.enum.filter (fun p => p.1 % D == d)).map Prod.snd := by
  have h := assignLoop_getD D hD files 0 (List.replicate D [])
    (List.length_replicate _ _) d hd
  rw [getD_replicate_nil, List.nil_append] at h
  exact h

/-- Residue counting over `range N`. -/
theorem countP_range_mod (D d : Nat) (hD : 0 < D) (hd : d < D) :
    ∀ N, (List.range N).countP (fun j => j % D == d) = N / D + (if d < N % D then 1 else 0) := by
  intro N
  induction N with
  | zero => simp
  | succ N ih =>
      rw [List.range_succ, List.countP_append, ih]
      have hsingle : List.countP (fun j => j % D == d) [N] = if N % D = d then 1 else 0 := by
        simp [List.countP_cons]
      rw [hsingle]
      have hmlt : N % D < D := Nat.mod_lt N hD
      by_cases hr : N % D + 1 = D
      · have hDAM : D * (N / D) + N % D = N := Nat.div_add_mod N D
        have hdvd : D ∣ N + 1 := ⟨N / D + 1, by rw [Nat.mul_add, Nat.mul_one]; omega⟩
        have hmod0 : (N + 1) % D = 0 := Nat.dvd_iff_mod_eq_zero.mp hdvd
        have hdiv : (N + 1) / D = N / D + 1 := by rw [Nat.succ_div, if_pos hdvd]
        rw [hdiv, hmod0]
        split_ifs <;> omega
      · have hlt2 : N % D + 1 < D := by omega
        have h1D : 1 < D := by omega
        have hmod : (N + 1) % D = N % D + 1 := by
          rw [Nat.add_mod, Nat.mod_eq_of_lt h1D, Nat.mod_eq_of_lt hlt2]
        have hndvd : ¬ D ∣ N + 1 := by
          intro hdvd
          have := Nat.dvd_iff_mod_eq_zero.mp hdvd
          omega
        have hdiv : (N + 1) / D = N / D := by rw [Nat.succ_div, if_neg hndvd, Nat.add_zero]
        rw [hdiv, hmod]
        split_ifs <;> omega

/-- The closed form of each queue's length. -/
theorem files_per_gpu_queue_length (D : Nat) (hD : 0 < D) (files : List α)
    (d : Nat) (hd : d < D) :
    ((files_per_gpu D files).getD d []).length =
      files.length / D + (if d < files.length % D then 1 else 0) := by
  rw [files_per_gpu_queue D hD files d hd, List.length_map, ← List.countP_eq_length_filter]
  have hcomp : (fun p : Nat × α => p.1 % D == d) = ((fun j => j % D == d) ∘ Prod.fst) := rfl
  rw [hcomp, ← List.countP_map, List.enum_map_fst]
  exact countP_range_mod D d hD hd files.length

/-- Appending one element to one queue raises the total length by one. -/
theorem sum_map_length_set {β : Type u} (qs : List (List β)) :
    ∀ (j : Nat), j < qs.length → ∀ x : β,
    ((qs.set j ((qs.getD j []) ++ [x])).map List.length).sum = ((qs.map List.length).sum) + 1 := by
  induction qs with
  | nil => intro j hj x; simp at hj
  | cons q rest ih =>
      intro j hj x
      cases j with
      | zero =>
          simp [List.getD_cons_zero, List.length_append]
          omega
      | succ j' =>
          have hj' : j' < rest.length := by simpa using hj
          rw [List.getD_cons_succ, List.set_cons_succ]
          simp only [List.map_cons, List.sum_cons, ih j' hj' x]
          omega

/-- Every enumerated job lands in exactly one queue. -/
theorem assignLoop_sum (D : Nat) (hD : 0 < D) (ps : List (Nat × α)) :
    ∀ qs : List (List α), qs.length = D →
    ((assignLoop D ps qs).map List.length).sum = ((qs.map List.length).sum) + ps.length := by
  induction ps with
  | nil => intro qs _; simp [assignLoop]
  | cons p rest ih =>
      intro qs hlen
      rw [assignLoop, ih _ (by rw [List.length_set, hlen]),
        sum_map_length_set qs (p.1 % D) (by rw [hlen]; exact Nat.mod_lt _ hD) p.2]
      simp [List.length_cons]
      omega

/-- The partition distributes all `N` jobs. -/
theorem files_per_gpu_total (D : Nat) (hD : 0 < D) (files : List α) :
    ((files_per_gpu D files).map List.length).sum = files.length := by
  rw [files_per_gpu, assignLoop_sum D hD files.enum (List.replicate D [])
    (List.length_replicate _ _)]
  simp [List.enum_length]

/-- Comparison of jobs by their original ordinal. -/
def ordinalLE (p q : Nat × α) : Bool := decide (p.1 ≤ q.1)

theorem sum_range_single (D k0 c : Nat) (h : k0 < D) :
    ((List.range D).map (fun d => if k0 = d then c else 0)).sum = c := by
  induction D with
  | zero => omega
  | succ Dp ih =>
      rw [List.range_succ, List.map_append, List.sum_append]
      by_cases hk : k0 = Dp
      · have hzero : ((List.range Dp).map (fun d => if k0 = d then c else 0)).sum = 0 := by
          apply List.sum_eq_zero
          intro x hx
          obtain ⟨d, hd, rfl⟩ := List.mem_map.mp hx
          have := List.mem_range.mp hd
          rw [if_neg (by omega)]
        rw [hzero]
        simp [hk]
      · have hk' : k0 < Dp := by omega
        rw [ih hk']
        simp [hk]

theorem count_block {β : Type u} [DecidableEq β] (l : List β) (k : β → Nat) (x : β) (d : Nat) :
    List.count x (l.filter (fun b => k b == d)) = if k x = d then List.count x l else 0 := by
  by_cases hx : k x = d
  · rw [if_pos hx, List.count_filter (by simpa using hx)]
  · rw [if_neg hx, List.count_eq_zero]
    intro hmem
    have h1 := List.of_mem_filter hmem
    simp at h1
    exact hx h1

/-- Concatenating the per-residue blocks of a list is a permutation of the
list. -/
theorem flatten_filter_perm {β : Type u} [DecidableEq β] (l : List β) (k : β → Nat) (D : Nat)
    (h : ∀ b ∈ l, k b < D) :
    (((List.range D).map (fun d => l.filter (fun b => k b == d))).flatten).Perm l := by
  rw [List.perm_iff_count]
  intro x
  rw [List.count_flatten, List.map_map]
  have hfun : (List.count x ∘ fun d => l.filter (fun b => k b == d)) =
      fun d => if k x = d then List.count x l else 0 := by
    funext d
    exact count_block l k x d
  rw [hfun]
  by_cases hx : x ∈ l
  · exact sum_range_single D (k x) (List.count x l) (h x hx)
  · have hcnt : List.count x l = 0 := List.count_eq_zero.mpr hx
    rw [hcnt]
    apply List.sum_eq_zero
    intro y hy
    obtain ⟨d, hd, rfl⟩ := List.mem_map.mp hy
    split <;> rfl

theorem pairwise_lt_enumFrom (l : List α) :
    ∀ i, List.Pairwise (fun p q : Nat × α => p.1 < q.1) (List.enumFrom i l) := by
  induction l with
  | nil => intro i; exact List.Pairwise.nil
  | cons a rest ih =>
      intro i
      rw [List.enumFrom_cons]
      refine List.Pairwise.cons ?_ (ih (i + 1))
      rintro ⟨j, b⟩ hq
      have h3 := List.mem_enumFrom hq
      simp only []
      omega

/-- Sorting the concatenation of the (ordinal-tagged) queues by ordinal
recovers the original enumeration. -/
theorem sort_recover {α : Type u} [DecidableEq α] (D : Nat) (hD : 0 < D) (files : List α) :
    ((((List.range D).map (fun d => files.enum.filter (fun p => p.1 % D == d))).flatten).mergeSort
      ordinalLE) = files.enum := by
  have hmem : ∀ b ∈ files.enum, (fun p : Nat × α => p.1 % D) b < D := by
    intro b _
    exact Nat.mod_lt _ hD
  have hperm1 : (((List.range D).map
      (fun d => files.enum.filter (fun p => p.1 % D == d))).flatten).Perm files.enum :=
    flatten_filter_perm files.enum (fun p => p.1 % D) D hmem
  have hperm : ((((List.range D).map
      (fun d => files.enum.filter (fun p => p.1 % D == d))).flatten).mergeSort
        ordinalLE).Perm files.enum :=
    (List.mergeSort_perm _ ordinalLE).trans hperm1
  have htrans : ∀ a b c : Nat × α, ordinalLE a b = true → ordinalLE b c = true →
      ordinalLE a c = true := by
    intro a b c hab hbc
    simp only [ordinalLE, decide_eq_true_eq] at hab hbc ⊢
    omega
  have htotal : ∀ a b : Nat × α, (ordinalLE a b || ordinalLE b a) = true := by
    intro a b
    simp only [ordinalLE, Bool.or_eq_true, decide_eq_true_eq]
    omega
  have hsorted := List.sorted_mergeSort htrans htotal
    (((List.range D).map (fun d => files.enum.filter (fun p => p.1 % D == d))).flatten)
  have hnodup : (((((List.range D).map
      (fun d => files.enum.filter (fun p => p.1 % D == d))).flatten).mergeSort
        ordinalLE).map Prod.fst).Nodup := by
    have h1 := hperm.map Prod.fst
    rw [List.enum_map_fst] at h1
    exact (h1.nodup_iff).mpr (List.nodup_range _)
  have hne := List.pairwise_map.mp hnodup
  have hle : List.Pairwise (fun p q : Nat × α => p.1 ≤ q.1)
      ((((List.range D).map (fun d => files.enum.filter (fun p => p.1 % D == d))).flatten).mergeSort
        ordinalLE) := by
    refine hsorted.imp ?_
    intro a b hab
    simpa [ordinalLE] using hab
  have hlt : List.Pairwise (fun p q : Nat × α => p.1 < q.1)
      ((((List.range D).map (fun d => files.enum.filter (fun p => p.1 % D == d))).flatten).mergeSort
        ordinalLE) := by
    refine (hle.and hne).imp ?_
    intro a b hab
    exact lt_of_le_of_ne hab.1 hab.2
  have henum : List.Pairwise (fun p q : Nat × α => p.1 < q.1) files.enum :=
    pairwise_lt_enumFrom files 0
  haveI : IsAntisymm (Nat × α) (fun p q => p.1 < q.1) :=
    ⟨fun a b h1 h2 => absurd h2 (Nat.lt_asymm h1)⟩
  exact List.eq_of_perm_of_sorted hperm hlt henum

/-- C1: for every job list and device count `D > 0` the round-robin
partition produces `D` queues; queue `d` holds exactly the jobs at ordinals
`≡ d (mod D)`, in their original relative order; all `N` jobs are
distributed; per-device queue lengths differ by at most one; sorting the
concatenation (in device order) of the ordinal-tagged queues by original
ordinal recovers the original enumerated list; and the partition is a pure
function of its inputs (partitioning twice yields identical queues). -/
theorem C1_partitioner {α : Type u} [DecidableEq α] (D : Nat) (hD : 0 < D) (files : List α) :
    (files_per_gpu D files).length = D ∧
    (∀ d, d < D → (files_per_gpu D files).getD d [] =
      (files.enum.filter (fun p => p.1 % D == d)).map Prod.snd) ∧
    ((files_per_gpu D files).map List.length).sum = files.length ∧
    (∀ d1 d2, d1 < D → d2 < D →
      ((files_per_gpu D files).getD d1 []).length ≤
        ((files_per_gpu D files).getD d2 []).length + 1) ∧
    ((((List.range D).map (fun d => files.enum.filter (fun p => p.1 % D == d))).flatten).mergeSort
      ordinalLE = files.enum) ∧
    files_per_gpu D files = files_per_gpu D files := by
  refine ⟨?_, ?_, files_per_gpu_total D hD files, ?_, sort_recover D hD files, rfl⟩
  · rw [files_per_gpu, assignLoop_length, List.length_replicate]
  · exact fun d hd => files_per_gpu_queue D hD files d hd
  · intro d1 d2 hd1 hd2
    rw [files_per_gpu_queue_length D hD files d1 hd1, files_per_gpu_queue_length D hD files d2 hd2]
    split_ifs <;> omega

/-- C1 witness: the spec's example — 5 jobs over 2 devices puts the jobs
at ordinals 0, 2, 4 on device 0 and those at 1, 3 on device 1. -/
theorem C1_partitioner_witness :
    0 < 2 ∧
    (files_per_gpu 2 ["j0", "j1", "j2", "j3", "j4"]).getD 0 [] = ["j0", "j2", "j4"] ∧
    (files_per_gpu 2 ["j0", "j1", "j2", "j3", "j4"]).getD 1 [] = ["j1", "j3"] ∧
    ((files_per_gpu 2 ["j0", "j1", "j2", "j3", "j4"]).map List.length).sum = 5 := by
  have h := C1_partitioner (α := String) 2 (by decide) ["j0", "j1", "j2", "j3", "j4"]
  refine ⟨by decide, ?_, ?_, h.2.2.1⟩
  · rw [h.2.1 0 (by decide)]
    decide
  · rw [h.2.1 1 (by decide)]
    decide

end FasterWhisper
